import Mathlib

/-!
Verification of the statement compiler in `src/query/compile.go` of the
influxdb query engine.  The source file contains two drafts of the same
compiler; they are embedded below as namespaces `D1` (the first draft,
lines 1-363) and `D2` (the second draft, lines 364-821).  The influxql
AST, the edge/node graph primitives and the `AuxiliaryFields` structure
live outside `src/` and are modelled from the spec where noted.

Machine-level conventions of the embedding:
 * Go's `time.Time` is an integer count of nanoseconds since the zero
   time, so `Time.IsZero` becomes equality with `0`; `time.Duration` is
   an integer count of nanoseconds.
 * Go's `%` on integers is `Int.tmod` (truncated toward zero); a zero
   divisor makes the Go runtime panic, which is modelled explicitly.
 * A Go function that can panic returns a `Res` value whose `panicked`
   constructor marks a process abort (no state survives it), while
   `err` carries the error string together with the mutated receiver,
   exactly as a Go `(value, error)` return does.
-/

set_option linter.unusedVariables false
set_option linter.unreachableTactic false
set_option linter.unusedTactic false
set_option linter.unnecessarySeqFocus false

namespace InfluxQL

/-- Modelled from the spec: a data source of the statement (§3, §4.2).
`measurement` mirrors `*influxql.Measurement`; `other` stands for every
non-measurement source kind (e.g. a subquery). -/
inductive Source
  | measurement (name : String)
  | other (kind : String)
deriving DecidableEq

/-- Whether a source is of measurement kind. -/
def Source.isMeasurement : Source → Bool
  | .measurement _ => true
  | .other _ => false

/-- Modelled from the spec: the influxql expression AST consumed by the
compiler (§6): bare reference, function call, distinct, binary
expression, wildcard, regex literal and the literal kinds.  The numeric
payload of `numberLit` is irrelevant to the compiler and kept as an
integer. -/
inductive GoExpr
  | varRef (val : String)
  | wildcard
  | regexLit (pattern : String)
  | call (name : String) (args : List GoExpr)
  | distinctE (val : String)
  | binary (op : String) (lhs rhs : GoExpr)
  | durationLit (val : Int)
  | timeLit (val : Int)
  | integerLit (val : Int)
  | numberLit (val : Int)
  | stringLit (val : String)
  | booleanLit (val : Bool)

/-- Modelled from the spec: which AST kinds implement the
`influxql.Literal` interface — every literal kind, including regex
literals; references, calls, distinct and binary expressions are not
literals. -/
def GoExpr.isLiteral : GoExpr → Bool
  | .regexLit _ => true
  | .durationLit _ => true
  | .timeLit _ => true
  | .integerLit _ => true
  | .numberLit _ => true
  | .stringLit _ => true
  | .booleanLit _ => true
  | _ => false

/-- Modelled from the spec: the rendering of an expression inside an
error message (influxql's `String` method, external to `src/`); only a
rough rendering, no compiled claim depends on it. -/
def GoExpr.brief : GoExpr → String
  | .varRef v => v
  | .wildcard => "*"
  | .regexLit p => p
  | .call n _ => n ++ "()"
  | .distinctE v => "DISTINCT " ++ v
  | .binary _ _ _ => "binary expression"
  | .durationLit n => toString n
  | .timeLit n => toString n
  | .integerLit n => toString n
  | .numberLit n => toString n
  | .stringLit v => v
  | .booleanLit b => toString b

/-- One selected field of the statement (`influxql.Field`; the alias is
irrelevant to the compiler). -/
structure Field where
  expr : GoExpr

/-- One grouping entry of the statement (`influxql.Dimension`). -/
structure Dimension where
  expr : GoExpr

/-- The parsed SELECT statement handed to `Compile`. -/
structure SelectStatement where
  sources : List Source
  fields : List Field
  dimensions : List Dimension

/-- `query.CompileOptions`: the single `Now` timestamp (nanoseconds
since the zero time; `0` is the Go zero `time.Time`). -/
structure CompileOptions where
  now : Int
deriving DecidableEq

/-- `influxql.Interval` (external to `src/`): bucket duration and
offset, both `time.Duration` nanosecond counts. -/
structure Interval where
  duration : Int := 0
  offset : Int := 0
deriving DecidableEq

/-- Modelled from Go's `time.Time.Truncate`: round down to a multiple
of `d` since the zero time (remainder taken in `[0, d)`); when
`d ≤ 0`, the time is returned unchanged. -/
def timeTruncate (t d : Int) : Int :=
  if d ≤ 0 then t else t - t % d

/-- Value types excluded by a wildcard type filter.  Only the two
values the compiler ever inserts (`influxql.String`,
`influxql.Boolean`) are modelled. -/
inductive DataType
  | str
  | boolean
deriving DecidableEq

/-- The `wildcard` descriptor of draft 2: ordered regex name filters
and the set of excluded value types. -/
structure WildcardDesc where
  nameFilters : List String := []
  typeFilters : List DataType := []
deriving DecidableEq

/-- Set-insertion into the modelled `TypeFilters` map. -/
def insertTypeFilter (t : DataType) (l : List DataType) : List DataType :=
  if t ∈ l then l else l ++ [t]

/-- Modelled from the spec (§4.1, §3): one directed edge of the
operator graph, either end possibly still unbound.  The Go
`WriteEdge`/`ReadEdge` pair of one connection is a single record here;
the write end's `Node` is `producer`, the read end's `Node` is
`consumer`. -/
structure Edge where
  producer : Option Nat := none
  consumer : Option Nat := none
deriving DecidableEq

/-- The operator-node variants of the compiled graph, holding edge ids
of the arena.  `auxN` is the shared `AuxiliaryFields` node, with the
list of requested references (spec §4.8). -/
inductive GNode
  | merge (inputs : List Nat) (output : Option Nat)
  | iteratorCreator (expr : Option String) (measurement : Source) (output : Option Nat)
  | functionCall (name : String) (input : Option Nat) (output : Option Nat)
  | distinctN (input : Option Nat) (output : Option Nat)
  | topBottom (dimensions : List String) (input : Option Nat) (output : Option Nat)
  | binaryN (op : String) (lhs : Option Nat) (rhs : Option Nat) (output : Option Nat)
  | auxN (refs : List String) (input : Option Nat) (output : Option Nat)
deriving DecidableEq

/-- Set the output edge of a node. -/
def GNode.setOutput (o : Nat) : GNode → GNode
  | .merge ins _ => .merge ins (some o)
  | .iteratorCreator r m _ => .iteratorCreator r m (some o)
  | .functionCall n i _ => .functionCall n i (some o)
  | .distinctN i _ => .distinctN i (some o)
  | .topBottom d i _ => .topBottom d i (some o)
  | .binaryN op l r _ => .binaryN op l r (some o)
  | .auxN refs i _ => .auxN refs i (some o)

/-- Set the (single) input edge of a node; no-op on nodes without one. -/
def GNode.setInput (e : Nat) : GNode → GNode
  | .functionCall n _ o => .functionCall n (some e) o
  | .distinctN _ o => .distinctN (some e) o
  | .topBottom d _ o => .topBottom d (some e) o
  | .auxN refs _ o => .auxN refs (some e) o
  | n => n

/-- Append an input edge to a merge node (Go `Merge.AddInput`). -/
def GNode.addMergeInput (e : Nat) : GNode → GNode
  | .merge ins o => .merge (ins ++ [e]) o
  | n => n

/-- Bind the left input edge of a binary node. -/
def GNode.setBinLhs (e : Nat) : GNode → GNode
  | .binaryN op _ r o => .binaryN op (some e) r o
  | n => n

/-- Bind the right input edge of a binary node. -/
def GNode.setBinRhs (e : Nat) : GNode → GNode
  | .binaryN op l _ o => .binaryN op l (some e) o
  | n => n

/-- Record a requested reference on the shared aux node. -/
def GNode.addAuxRef (r : String) : GNode → GNode
  | .auxN refs i o => .auxN (refs ++ [r]) i o
  | n => n

/-- In-place update of a list element (the arena mutation helper). -/
def listModify (f : α → α) : Nat → List α → List α
  | _, [] => []
  | 0, a :: as => f a :: as
  | n + 1, a :: as => a :: listModify f n as

/-- The shared compile state: the `compiledStatement` of both drafts
together with the arena of constructed nodes and edges.
`outputEdges` is draft 1's `OutputEdges`; `fieldWildcard` and
`compiledFields` carry draft 2's per-field `compiledField` data (the
in-progress field's wildcard descriptor, and the finished fields'
descriptor/output pairs). -/
structure CState where
  sources : List Source := []
  dimensions : List String := []
  interval : Interval := {}
  functionCalls : List Nat := []
  onlySelectors : Bool := true
  topBottomFunction : String := ""
  auxiliaryFields : Option Nat := none
  outputEdges : List Nat := []
  fieldWildcard : Option WildcardDesc := none
  compiledFields : List (Option WildcardDesc × Nat) := []
  options : CompileOptions := { now := 0 }
  nodes : List GNode := []
  edges : List Edge := []
deriving DecidableEq

/-- Append a node to the arena, returning its id. -/
def addNode (n : GNode) (s : CState) : Nat × CState :=
  (s.nodes.length, { s with nodes := s.nodes ++ [n] })

/-- Create an edge with the given (possibly unbound) ends, returning
its id (spec §4.1 `create`). -/
def addEdgeRaw (p c : Option Nat) (s : CState) : Nat × CState :=
  (s.edges.length, { s with edges := s.edges ++ [{ producer := p, consumer := c }] })

/-- Update a node of the arena in place. -/
def updNode (s : CState) (i : Nat) (f : GNode → GNode) : CState :=
  { s with nodes := listModify f i s.nodes }

/-- Bind the producer end of an edge (spec §4.1). -/
def bindEdgeProducer (s : CState) (e n : Nat) : CState :=
  { s with edges := listModify (fun ed => { ed with producer := some n }) e s.edges }

/-- Bind the consumer end of an edge (spec §4.1). -/
def bindEdgeConsumer (s : CState) (e n : Nat) : CState :=
  { s with edges := listModify (fun ed => { ed with consumer := some n }) e s.edges }

/-- Modelled from the spec (§4.8): `ReadEdge.Insert` splices node `n`
into edge `e`: a fresh edge carries the old producer into `n`, and `e`
itself is reproduced by `n`; returns (input edge for `n`, output edge
of `n`). -/
def edgeInsert (e n : Nat) (s : CState) : (Nat × Nat) × CState :=
  let p := (s.edges.getD e {}).producer
  let (e2, s) := addEdgeRaw p (some n) s
  let s := { s with edges := listModify (fun ed => { ed with producer := some n }) e s.edges }
  ((e2, e), s)

/-- The outcome of one Go call: `ok`/`err` carry the mutated compile
state (Go returns `(value, error)` with the receiver mutated in
place); `panicked` is a process abort. -/
inductive Res (α : Type)
  | ok (val : α) (state : CState)
  | err (msg : String) (state : CState)
  | panicked (msg : String)
deriving DecidableEq

/-- Sequencing of Go calls: propagate errors and panics. -/
def Res.andThen : Res α → (α → CState → Res β) → Res β
  | .ok a s, f => f a s
  | .err m s, _ => .err m s
  | .panicked m, _ => .panicked m

/-- Whether the outcome is a success. -/
def Res.isOk : Res α → Bool
  | .ok _ _ => true
  | _ => false

/-- The error message of an `err` outcome. -/
def Res.errMsg : Res α → Option String
  | .err m _ => some m
  | _ => none

/-- The panic message of a `panicked` outcome. -/
def Res.panicMsg : Res α → Option String
  | .panicked m => some m
  | _ => none

/-- The registered function-call edges of a successful outcome. -/
def Res.okCalls : Res α → Option (List Nat)
  | .ok _ s => some s.functionCalls
  | _ => none

/-- Whether the auxiliary-fields slot is present after success. -/
def Res.okAuxPresent : Res α → Option Bool
  | .ok _ s => some s.auxiliaryFields.isSome
  | _ => none

/-- The `OnlySelectors` flag after success. -/
def Res.okOnlySelectors : Res α → Option Bool
  | .ok _ s => some s.onlySelectors
  | _ => none

/-- The `TopBottomFunction` name after success. -/
def Res.okTopBottom : Res α → Option String
  | .ok _ s => some s.topBottomFunction
  | _ => none

/-- The interval after success. -/
def Res.okInterval : Res α → Option Interval
  | .ok _ s => some s.interval
  | _ => none

/-- The interval duration after success. -/
def Res.okDuration : Res α → Option Int
  | .ok _ s => some s.interval.duration
  | _ => none

/-- The control (non-graph) portion of two states agrees: everything
except the node/edge arena and the per-field output bookkeeping.
Graph wiring never changes these fields. -/
def ctrlEq (s s' : CState) : Prop :=
  s'.sources = s.sources ∧ s'.dimensions = s.dimensions ∧
  s'.interval = s.interval ∧ s'.functionCalls = s.functionCalls ∧
  s'.onlySelectors = s.onlySelectors ∧
  s'.topBottomFunction = s.topBottomFunction ∧
  s'.auxiliaryFields = s.auxiliaryFields ∧ s'.options = s.options

/-- Dimension parsing touches only `dimensions` and `interval`; all
other fields of the two states agree. -/
def dimFrame (s s' : CState) : Prop :=
  s'.sources = s.sources ∧ s'.functionCalls = s.functionCalls ∧
  s'.onlySelectors = s.onlySelectors ∧
  s'.topBottomFunction = s.topBottomFunction ∧
  s'.auxiliaryFields = s.auxiliaryFields ∧ s'.options = s.options ∧
  s'.nodes = s.nodes ∧ s'.edges = s.edges

/-- A field expression that is the bare reference `time` is skipped by
both drafts' field loops. -/
def isTimeField (f : Field) : Bool :=
  match f.expr with
  | .varRef v => v = "time"
  | _ => false

namespace D1

/-- Draft 1, `newCompiler` (compile.go lines 55-64): capture
`time.Now` (the `sysNow` parameter models the ambient clock) when the
option is the zero time, and start with `OnlySelectors = true`. -/
def newCompiler (stmt : SelectStatement) (opt : CompileOptions) (sysNow : Int) : CState :=
  let opt := if opt.now = 0 then { now := sysNow } else opt
  { onlySelectors := true, options := opt }

/-- Draft 1, the source loop of `compileVarRef` (lines 256-268): one
`IteratorCreator` per measurement source wired into the merge node;
any other source kind panics. -/
def mergeLoop (ref : Option String) (mid : Nat) : List Source → CState → Res Unit
  | [], s => .ok () s
  | .measurement m :: rest, s =>
    let (icid, s) := addNode (.iteratorCreator ref (.measurement m) none) s
    let (eid, s) := addEdgeRaw (some icid) (some mid) s
    let s := updNode s mid (GNode.addMergeInput eid)
    let s := updNode s icid (GNode.setOutput eid)
    mergeLoop ref mid rest s
  | .other _ :: _, _ => .panicked "unimplemented"

/-- Draft 1, `compileVarRef` (lines 254-273): build a merge over all
sources and return its output edge bound to `node`. -/
def compileVarRef (ref : Option String) (node : Option Nat) (s : CState) : Res Nat :=
  let (mid, s) := addNode (.merge [] none) s
  (mergeLoop ref mid s.sources s).andThen fun _ s =>
    let (out, s) := addEdgeRaw (some mid) node s
    let s := updNode s mid (GNode.setOutput out)
    .ok out s

/-- Draft 1, `compileDistinct` (lines 190-209): argument checks, the
`Distinct` node over a var-ref subgraph, and unconditional
registration of the output edge in `FunctionCalls`. -/
def compileDistinct (args : List GoExpr) (s : CState) : Res Nat :=
  match args with
  | [] => .err "distinct function requires at least one argument" s
  | [arg0] =>
    match arg0 with
    | .varRef x =>
      let (did, s) := addNode (.distinctN none none) s
      (compileVarRef (some x) (some did) s).andThen fun ein s =>
        let s := updNode s did (GNode.setInput ein)
        let (out, s) := addEdgeRaw (some did) none s
        let s := updNode s did (GNode.setOutput out)
        let s := { s with functionCalls := s.functionCalls ++ [out] }
        .ok out s
    | _ => .err "expected field argument in distinct()" s
  | _ => .err "distinct function can only have one argument" s

/-- Draft 1, the meta-property switch of `compileFunction`
(lines 149-157): record top/bottom, leave the selector-safe set
alone, clear `OnlySelectors` otherwise. -/
def functionFlags (name : String) (s : CState) : CState :=
  if name = "top" ∨ name = "bottom" then
    if s.topBottomFunction = "" then { s with topBottomFunction := name } else s
  else if name = "max" ∨ name = "min" ∨ name = "first" ∨ name = "last" ∨
      name = "percentile" ∨ name = "sample" then
    s
  else
    { s with onlySelectors := false }

/-- Draft 1, `compileFunction` (lines 111-163): arity check, the
`count(distinct(...))` special input, otherwise a var-ref input, then
the `FunctionCall` node, the meta flags and registration. -/
def compileFunction (name : String) (args : List GoExpr) (s : CState) : Res Nat :=
  match args with
  | [a0] =>
    let inputRes : Res (Option Nat) :=
      if name = "count" then
        match a0 with
        | .call cn dargs =>
          if cn = "distinct" then
            (compileDistinct dargs s).andThen fun d s => .ok (some d) s
          else .ok none s
        | .distinctE v =>
          (compileDistinct [.varRef v] s).andThen fun d s => .ok (some d) s
        | _ => .ok none s
      else .ok none s
    inputRes.andThen fun inp s =>
      (match inp with
       | some i => Res.ok i s
       | none =>
         match a0 with
         | .varRef x => compileVarRef (some x) none s
         | _ => .err ("expected field argument in " ++ name ++ "()") s).andThen
        fun input s =>
          let (cid, s) := addNode (.functionCall name none none) s
          let s := updNode s cid (GNode.setInput input)
          let s := bindEdgeConsumer s input cid
          let s := functionFlags name s
          let (out, s) := addEdgeRaw (some cid) none s
          let s := updNode s cid (GNode.setOutput out)
          .ok out { s with functionCalls := s.functionCalls ++ [out] }
  | _ =>
    .err ("invalid number of arguments for " ++ name ++ ", expected 1, got " ++
      toString args.length) s

/-- Draft 1, the tie-breaker dimension loop of `compileTopBottom`
(lines 226-235): interior arguments must be bare references. -/
def topBottomDims (name : String) : List GoExpr → Except String (List String)
  | [] => .ok []
  | .varRef v :: rest => (topBottomDims name rest).map (fun l => v :: l)
  | e :: _ =>
    .error ("only fields or tags are allowed in " ++ name ++ "(), found " ++ e.brief)

/-- Draft 1, `compileTopBottom` (lines 211-252): exclusivity check on
`TopBottomFunction`, arity, field/dimension/limit validation, then the
selector node and registration. -/
def compileTopBottom (name : String) (args : List GoExpr) (s : CState) : Res Nat :=
  if s.topBottomFunction ≠ "" then
    .err ("selector function " ++ s.topBottomFunction ++
      "() cannot be combined with other functions") s
  else
    match args with
    | arg0 :: arg1 :: rest =>
      match arg0 with
      | .varRef refName =>
        match topBottomDims name ((arg1 :: rest).dropLast) with
        | .error m => .err m s
        | .ok dims =>
          match (arg1 :: rest).getLast (by simp) with
          | .integerLit nv =>
            if nv ≤ 0 then
              .err ("limit (" ++ toString nv ++ ") in " ++ name ++
                " function must be at least 1") s
            else
              let s := { s with topBottomFunction := name }
              let (tid, s) := addNode (.topBottom dims none none) s
              (compileVarRef (some refName) (some tid) s).andThen fun ein s =>
                let s := updNode s tid (GNode.setInput ein)
                let (out, s) := addEdgeRaw (some tid) none s
                let s := updNode s tid (GNode.setOutput out)
                let s := { s with functionCalls := s.functionCalls ++ [out] }
                .ok out s
          | last =>
            .err ("expected integer as last argument in " ++ name ++ "(), found " ++
              last.brief) s
      | _ => .err ("expected field argument in " ++ name ++ "()") s
    | _ =>
      .err ("invalid number of arguments for " ++ name ++
        ", expected at least 2, got " ++ toString args.length) s

/-- Draft 1, `compileExpr` (lines 66-109): dispatch on the expression
kind; a bare reference goes through the lazily instantiated
`AuxiliaryFields` (its `Iterator` is modelled per spec §4.8 as a fresh
output edge of the shared aux node recording the reference); a binary
expression with a literal side falls through to "unimplemented". -/
def compileExpr : GoExpr → CState → Res Nat
  | .varRef x, s =>
    let (aid, s) :=
      match s.auxiliaryFields with
      | some aid => (aid, s)
      | none =>
        let (aid, s) := addNode (.auxN [] none none) s
        (aid, { s with auxiliaryFields := some aid })
    let s := updNode s aid (GNode.addAuxRef x)
    let (out, s) := addEdgeRaw (some aid) none s
    .ok out s
  | .call name args, s =>
    if name = "count" ∨ name = "min" ∨ name = "max" ∨ name = "sum" ∨
        name = "first" ∨ name = "last" ∨ name = "mean" then
      compileFunction name args s
    else if name = "distinct" then
      compileDistinct args s
    else if name = "top" ∨ name = "bottom" then
      compileTopBottom name args s
    else
      .err "unimplemented" s
  | .distinctE v, s => compileDistinct [.varRef v] s
  | .binary op lhs rhs, s =>
    if lhs.isLiteral then .err "unimplemented" s
    else if rhs.isLiteral then .err "unimplemented" s
    else
      (compileExpr lhs s).andThen fun le s =>
        (compileExpr rhs s).andThen fun re s =>
          let (bid, s) := addNode (.binaryN op (some le) (some re) none) s
          let s := bindEdgeConsumer s le bid
          let s := bindEdgeConsumer s re bid
          let (out, s) := addEdgeRaw (some bid) none s
          let s := updNode s bid (GNode.setOutput out)
          .ok out s
  | _, s => .err "unimplemented" s

/-- Draft 1, `linkAuxiliaryFields` (lines 165-188): require a function
call when no auxiliary fields exist; otherwise enforce selector-only
and at-most-one-call, then splice the aux node downstream of the
single call or build its own var-ref subgraph. -/
def linkAuxiliaryFields (s : CState) : Res Unit :=
  match s.auxiliaryFields with
  | none =>
    if s.functionCalls.length = 0 then
      .err "at least 1 non-time field must be queried" s
    else .ok () s
  | some aid =>
    if ¬s.onlySelectors then
      .err "mixing aggregate and non-aggregate queries is not supported" s
    else if s.functionCalls.length > 1 then
      .err "mixing multiple selector functions with tags or fields is not supported" s
    else
      match s.functionCalls with
      | [e0] =>
        let ((ein, eout), s) := edgeInsert e0 aid s
        let s := updNode s aid (fun n => (n.setInput ein).setOutput eout)
        .ok () s
      | _ =>
        (compileVarRef none (some aid) s).andThen fun ein s =>
          .ok () (updNode s aid (GNode.setInput ein))

/-- Draft 1, `validateFields` (lines 275-281): top/bottom may not
coexist with a second registered call. -/
def validateFields (s : CState) : Res Unit :=
  if s.functionCalls.length > 1 ∧ s.topBottomFunction ≠ "" then
    .err ("selector function " ++ s.topBottomFunction ++
      "() cannot be combined with other functions") s
  else .ok () s

/-- Draft 1, one dimension entry of `Compile`'s loop (lines 290-335):
tag references (rejecting the reserved name `time`), the `time()` call
with its duration and offset arguments, silently accepted wildcards,
unimplemented regexes.  Go's `%` panics on the zero divisor, which is
modelled explicitly. -/
def parseDim (s : CState) (d : Dimension) : Res Unit :=
  match d.expr with
  | .varRef v =>
    if v.toLower = "time" then
      .err "time() is a function and expects at least one argument" s
    else .ok () { s with dimensions := s.dimensions ++ [v] }
  | .call nm args =>
    if nm ≠ "time" then .err "only time() calls allowed in dimensions" s
    else
      match args with
      | [] => .err "time dimension expected 1 or 2 arguments" s
      | a0 :: rest =>
        if rest.length > 1 then .err "time dimension expected 1 or 2 arguments" s
        else
          match a0 with
          | .durationLit dv =>
            if s.interval.duration ≠ 0 then
              .err "multiple time dimensions not allowed" s
            else
              let s := { s with interval := { s.interval with duration := dv } }
              match rest with
              | [] => .ok () s
              | a1 :: _ =>
                match a1 with
                | .durationLit ov =>
                  if s.interval.duration = 0 then
                    .panicked "runtime error: integer divide by zero"
                  else
                    .ok () { s with interval :=
                      { s.interval with offset := Int.tmod ov s.interval.duration } }
                | .timeLit tv =>
                  .ok () { s with interval :=
                    { s.interval with offset := tv - timeTruncate tv s.interval.duration } }
                | .call cn cargs =>
                  if cn ≠ "now" then
                    .err "time dimension offset function must be now()" s
                  else if cargs.length ≠ 0 then
                    .err "time dimension offset now() function requires no arguments" s
                  else
                    let now := s.options.now
                    .ok () { s with interval :=
                      { s.interval with offset := now - timeTruncate now s.interval.duration } }
                | _ => .err "time dimension offset must be duration or now()" s
          | _ => .err "time dimension must have duration argument" s
  | .wildcard => .ok () s
  | .regexLit _ => .err "unimplemented" s
  | _ => .err "only time and tag dimensions allowed" s

/-- Draft 1, the dimension loop of `Compile` (lines 290-335). -/
def parseDims (s : CState) : List Dimension → Res Unit
  | [] => .ok () s
  | d :: rest => (parseDim s d).andThen fun _ s => parseDims s rest

/-- Draft 1, the field loop of `Compile` (lines 337-347): skip the
bare `time` reference, compile each field and collect its output
edge. -/
def compileFields (s : CState) : List Field → Res Unit
  | [] => .ok () s
  | f :: rest =>
    if isTimeField f then compileFields s rest
    else
      (compileExpr f.expr s).andThen fun out s =>
        compileFields { s with outputEdges := s.outputEdges ++ [out] } rest

/-- Draft 1, the initial compiler state of `Compile` (lines 285-286). -/
def initState (stmt : SelectStatement) (opt : CompileOptions) (sysNow : Int) : CState :=
  let c := newCompiler stmt opt sysNow
  { c with sources := c.sources ++ stmt.sources }

/-- Draft 1, the dimension and field stages of `Compile`. -/
def compileBody (stmt : SelectStatement) (opt : CompileOptions) (sysNow : Int) : Res Unit :=
  (parseDims (initState stmt opt sysNow) stmt.dimensions).andThen fun _ s =>
    compileFields s stmt.fields

/-- Draft 1, `Compile` (lines 283-356): dimensions, fields, field
validation, auxiliary-field linking. -/
def Compile (stmt : SelectStatement) (opt : CompileOptions) (sysNow : Int) : Res Unit :=
  (compileBody stmt opt sysNow).andThen fun _ s =>
    (validateFields s).andThen fun _ s =>
      linkAuxiliaryFields s

end D1

namespace D2

/-- Draft 2, `newCompiler` (compile.go lines 429-438): identical `now`
capture; the per-field list starts empty. -/
def newCompiler (stmt : SelectStatement) (opt : CompileOptions) (sysNow : Int) : CState :=
  let opt := if opt.now = 0 then { now := sysNow } else opt
  { onlySelectors := true, options := opt }

/-- Draft 2, `requireAuxiliaryFields` (lines 817-821): lazily create
the shared aux node. -/
def requireAuxiliaryFields (s : CState) : CState :=
  match s.auxiliaryFields with
  | some _ => s
  | none =>
    let (aid, s) := addNode (.auxN [] none none) s
    { s with auxiliaryFields := some aid }

/-- Draft 2, `wildcard` (lines 669-675): instantiate the field's
wildcard descriptor once. -/
def wildcard (s : CState) : CState :=
  match s.fieldWildcard with
  | some _ => s
  | none => { s with fieldWildcard := some {} }

/-- Draft 2, `wildcardFilter` (lines 677-680). -/
def wildcardFilter (p : String) (s : CState) : CState :=
  let s := wildcard s
  { s with fieldWildcard :=
      s.fieldWildcard.map fun w => { w with nameFilters := w.nameFilters ++ [p] } }

/-- Draft 2, `wildcardFunction` (lines 682-692): record the type
restriction the function imposes on expanded columns. -/
def wildcardFunction (name : String) (s : CState) : CState :=
  let s := wildcard s
  if name = "count" ∨ name = "first" ∨ name = "last" ∨ name = "distinct" ∨
      name = "elapsed" ∨ name = "mode" ∨ name = "sample" then
    { s with fieldWildcard :=
        s.fieldWildcard.map fun w =>
          { w with typeFilters := insertTypeFilter .boolean w.typeFilters } }
  else if name = "min" ∨ name = "max" then s
  else
    { s with fieldWildcard :=
        s.fieldWildcard.map fun w =>
          { w with typeFilters := insertTypeFilter .str w.typeFilters } }

/-- Draft 2, `wildcardFunctionFilter` (lines 694-697). -/
def wildcardFunctionFilter (name : String) (p : String) (s : CState) : CState :=
  let s := wildcardFunction name s
  { s with fieldWildcard :=
      s.fieldWildcard.map fun w => { w with nameFilters := w.nameFilters ++ [p] } }

/-- Draft 2, the source loop of `compileVarRef` (lines 701-713): as in
draft 1, but a non-measurement source returns the "unimplemented"
error instead of panicking. -/
def mergeLoop (ref : Option String) (mid : Nat) : List Source → CState → Res Unit
  | [], s => .ok () s
  | .measurement m :: rest, s =>
    let (icid, s) := addNode (.iteratorCreator ref (.measurement m) none) s
    let (eid, s) := addEdgeRaw (some icid) (some mid) s
    let s := updNode s mid (GNode.addMergeInput eid)
    let s := updNode s icid (GNode.setOutput eid)
    mergeLoop ref mid rest s
  | .other _ :: _, s => .err "unimplemented" s

/-- Draft 2, `compileVarRef` (lines 699-716): top-down — the merge
node fills the write edge `out` handed down by the caller. -/
def compileVarRef (ref : Option String) (out : Nat) (s : CState) : Res Unit :=
  let (mid, s) := addNode (.merge [] (some out)) s
  (mergeLoop ref mid s.sources s).andThen fun _ s =>
    .ok () (bindEdgeProducer s out mid)

/-- Draft 2, `compileDistinct` (lines 603-626): as draft 1, except the
output edge is registered in `FunctionCalls` only when the call is not
nested inside `count`. -/
def compileDistinct (args : List GoExpr) (out : Nat) (nested : Bool) (s : CState) :
    Res Unit :=
  match args with
  | [] => .err "distinct function requires at least one argument" s
  | [arg0] =>
    match arg0 with
    | .varRef x =>
      let (did, s) := addNode (.distinctN none (some out)) s
      let s :=
        if nested then s else { s with functionCalls := s.functionCalls ++ [out] }
      let s := bindEdgeProducer s out did
      let (ein, s) := addEdgeRaw none (some did) s
      let s := updNode s did (GNode.setInput ein)
      compileVarRef (some x) ein s
    | _ => .err "expected field argument in distinct()" s
  | _ => .err "distinct function can only have one argument" s

/-- Draft 2, the argument switch at the end of `compileFunction`
(lines 559-571): a reference, wildcard or regex argument. -/
def compileFunctionArg (name : String) (a0 : GoExpr) (ein : Nat) (s : CState) :
    Res Unit :=
  match a0 with
  | .varRef x => compileVarRef (some x) ein s
  | .wildcard => .ok () (wildcardFunction name s)
  | .regexLit p => .ok () (wildcardFunctionFilter name p s)
  | _ => .err ("expected field argument in " ++ name ++ "()") s

/-- Draft 2, `compileFunction` (lines 530-572): the call node is
created and registered, and `OnlySelectors` updated, before the
argument is examined; `count(distinct(...))` forwards to the nested
distinct. -/
def compileFunction (name : String) (args : List GoExpr) (out : Nat) (s : CState) :
    Res Unit :=
  match args with
  | [a0] =>
    let (cid, s) := addNode (.functionCall name none (some out)) s
    let s := { s with functionCalls := s.functionCalls ++ [out] }
    let s := bindEdgeProducer s out cid
    let (ein, s) := addEdgeRaw none (some cid) s
    let s := updNode s cid (GNode.setInput ein)
    let s :=
      if name = "max" ∨ name = "min" ∨ name = "first" ∨ name = "last" ∨
          name = "percentile" ∨ name = "sample" then s
      else { s with onlySelectors := false }
    if name = "count" then
      match a0 with
      | .call cn dargs =>
        if cn = "distinct" then compileDistinct dargs ein true s
        else compileFunctionArg name a0 ein s
      | .distinctE v => compileDistinct [.varRef v] ein true s
      | _ => compileFunctionArg name a0 ein s
    else compileFunctionArg name a0 ein s
  | _ =>
    .err ("invalid number of arguments for " ++ name ++ ", expected 1, got " ++
      toString args.length) s

/-- Draft 2, `compileTopBottom` (lines 628-667): the same validation
as draft 1, but top-down wiring and — unlike draft 1 — no registration
of the selector in `FunctionCalls`. -/
def compileTopBottom (name : String) (args : List GoExpr) (out : Nat) (s : CState) :
    Res Unit :=
  if s.topBottomFunction ≠ "" then
    .err ("selector function " ++ s.topBottomFunction ++
      "() cannot be combined with other functions") s
  else
    match args with
    | arg0 :: arg1 :: rest =>
      match arg0 with
      | .varRef refName =>
        match D1.topBottomDims name ((arg1 :: rest).dropLast) with
        | .error m => .err m s
        | .ok dims =>
          match (arg1 :: rest).getLast (by simp) with
          | .integerLit nv =>
            if nv ≤ 0 then
              .err ("limit (" ++ toString nv ++ ") in " ++ name ++
                " function must be at least 1") s
            else
              let s := { s with topBottomFunction := name }
              let (tid, s) := addNode (.topBottom dims none (some out)) s
              let s := bindEdgeProducer s out tid
              let (ein, s) := addEdgeRaw none (some tid) s
              let s := updNode s tid (GNode.setInput ein)
              compileVarRef (some refName) ein s
          | last =>
            .err ("expected integer as last argument in " ++ name ++ "(), found " ++
              last.brief) s
      | _ => .err ("expected field argument in " ++ name ++ "()") s
    | _ =>
      .err ("invalid number of arguments for " ++ name ++
        ", expected at least 2, got " ++ toString args.length) s

/-- Draft 2, `compileExpr` (lines 473-528), as the method reads for a
`compiledField` whose `global` back-pointer is set to the statement
state (the state threaded here): a bare reference only requests
auxiliary fields (symbol resolution is a TODO in the source); wildcard
and regex field expressions record expansion state and then fall
through to "unimplemented", as does a binary expression with a literal
side.  The actual field loop of `Compile` never sets `global` — see
`compileExprNilGlobal` and `compileFields` below. -/
def compileExpr : GoExpr → Nat → CState → Res Unit
  | .varRef _, _, s => .ok () (requireAuxiliaryFields s)
  | .wildcard, _, s =>
    let s := requireAuxiliaryFields s
    let s := wildcard s
    .err "unimplemented" s
  | .regexLit p, _, s =>
    let s := requireAuxiliaryFields s
    let s := wildcardFilter p s
    .err "unimplemented" s
  | .call name args, out, s =>
    if name = "count" ∨ name = "min" ∨ name = "max" ∨ name = "sum" ∨
        name = "first" ∨ name = "last" ∨ name = "mean" then
      compileFunction name args out s
    else if name = "distinct" then
      compileDistinct args out false s
    else if name = "top" ∨ name = "bottom" then
      compileTopBottom name args out s
    else
      .err "unimplemented" s
  | .distinctE v, out, s => compileDistinct [.varRef v] out false s
  | .binary op lhs rhs, out, s =>
    if lhs.isLiteral then .err "unimplemented" s
    else if rhs.isLiteral then .err "unimplemented" s
    else
      let (bid, s) := addNode (.binaryN op none none (some out)) s
      let s := bindEdgeProducer s out bid
      let (le, s) := addEdgeRaw none (some bid) s
      let s := updNode s bid (GNode.setBinLhs le)
      (compileExpr lhs le s).andThen fun _ s =>
        let (re, s) := addEdgeRaw none (some bid) s
        let s := updNode s bid (GNode.setBinRhs re)
        compileExpr rhs re s
  | _, _, s => .err "unimplemented" s

/-- Draft 2, `linkAuxiliaryFields` (lines 574-601): identical to
draft 1 except that the zero-call branch hands an unbound write edge
to `compileVarRef`, whose non-measurement failure is an error. -/
def linkAuxiliaryFields (s : CState) : Res Unit :=
  match s.auxiliaryFields with
  | none =>
    if s.functionCalls.length = 0 then
      .err "at least 1 non-time field must be queried" s
    else .ok () s
  | some aid =>
    if ¬s.onlySelectors then
      .err "mixing aggregate and non-aggregate queries is not supported" s
    else if s.functionCalls.length > 1 then
      .err "mixing multiple selector functions with tags or fields is not supported" s
    else
      match s.functionCalls with
      | [e0] =>
        let ((ein, eout), s) := edgeInsert e0 aid s
        let s := updNode s aid (fun n => (n.setInput ein).setOutput eout)
        .ok () s
      | _ =>
        let (ein, s) := addEdgeRaw none (some aid) s
        let s := updNode s aid (GNode.setInput ein)
        compileVarRef none ein s

/-- Draft 2, `validateFields` (lines 718-724): same check as
draft 1. -/
def validateFields (s : CState) : Res Unit :=
  if s.functionCalls.length > 1 ∧ s.topBottomFunction ≠ "" then
    .err ("selector function " ++ s.topBottomFunction ++
      "() cannot be combined with other functions") s
  else .ok () s

/-- Draft 2, one dimension entry of `Compile`'s loop (lines 733-779):
identical to draft 1 except that a wildcard dimension is rejected as
unimplemented. -/
def parseDim (s : CState) (d : Dimension) : Res Unit :=
  match d.expr with
  | .varRef v =>
    if v.toLower = "time" then
      .err "time() is a function and expects at least one argument" s
    else .ok () { s with dimensions := s.dimensions ++ [v] }
  | .call nm args =>
    if nm ≠ "time" then .err "only time() calls allowed in dimensions" s
    else
      match args with
      | [] => .err "time dimension expected 1 or 2 arguments" s
      | a0 :: rest =>
        if rest.length > 1 then .err "time dimension expected 1 or 2 arguments" s
        else
          match a0 with
          | .durationLit dv =>
            if s.interval.duration ≠ 0 then
              .err "multiple time dimensions not allowed" s
            else
              let s := { s with interval := { s.interval with duration := dv } }
              match rest with
              | [] => .ok () s
              | a1 :: _ =>
                match a1 with
                | .durationLit ov =>
                  if s.interval.duration = 0 then
                    .panicked "runtime error: integer divide by zero"
                  else
                    .ok () { s with interval :=
                      { s.interval with offset := Int.tmod ov s.interval.duration } }
                | .timeLit tv =>
                  .ok () { s with interval :=
                    { s.interval with offset := tv - timeTruncate tv s.interval.duration } }
                | .call cn cargs =>
                  if cn ≠ "now" then
                    .err "time dimension offset function must be now()" s
                  else if cargs.length ≠ 0 then
                    .err "time dimension offset now() function requires no arguments" s
                  else
                    let now := s.options.now
                    .ok () { s with interval :=
                      { s.interval with offset := now - timeTruncate now s.interval.duration } }
                | _ => .err "time dimension offset must be duration or now()" s
          | _ => .err "time dimension must have duration argument" s
  | .wildcard => .err "unimplemented" s
  | .regexLit _ => .err "unimplemented" s
  | _ => .err "only time and tag dimensions allowed" s

/-- Draft 2, the dimension loop of `Compile` (lines 732-779). -/
def parseDims (s : CState) : List Dimension → Res Unit
  | [] => .ok () s
  | d :: rest => (parseDim s d).andThen fun _ s => parseDims s rest

/-- The Go runtime message for dereferencing a nil pointer. -/
def nilGlobalPanic : String :=
  "runtime error: invalid memory address or nil pointer dereference"

/-- Draft 2, `compileDistinct` (lines 603-626) as executed by the real
field loop, whose `compiledField` has a nil `global` back-pointer
(line 787 constructs it without setting `global`): the argument
checks, which precede any `global` access, behave normally; the
bare-reference path reaches `c.global.FunctionCalls` (line 619) and
panics on the nil pointer. -/
def compileDistinctNilGlobal (args : List GoExpr) (s : CState) : Res Unit :=
  match args with
  | [] => .err "distinct function requires at least one argument" s
  | [arg0] =>
    match arg0 with
    | .varRef _ => .panicked nilGlobalPanic
    | _ => .err "expected field argument in distinct()" s
  | _ => .err "distinct function can only have one argument" s

/-- Draft 2, `compileExpr` (lines 473-528) as executed by the real
field loop: `compiledField.global` is nil, so every path that
dereferences it panics at its first access — bare references,
wildcards and regexes at `requireAuxiliaryFields` (lines 477/484/487),
aggregate calls at the `FunctionCalls` append of `compileFunction`
(line 537, after the arity check), distinct at line 619 after its
argument checks, top/bottom at the very first `TopBottomFunction`
read (line 629).  Paths that never touch `global` — unknown call
names, literal field expressions, and binary expressions with a
literal side — return their errors exactly as written. -/
def compileExprNilGlobal : GoExpr → Nat → CState → Res Unit
  | .varRef _, _, _ => .panicked nilGlobalPanic
  | .wildcard, _, _ => .panicked nilGlobalPanic
  | .regexLit _, _, _ => .panicked nilGlobalPanic
  | .call name args, _, s =>
    if name = "count" ∨ name = "min" ∨ name = "max" ∨ name = "sum" ∨
        name = "first" ∨ name = "last" ∨ name = "mean" then
      match args with
      | [_] => .panicked nilGlobalPanic
      | _ =>
        .err ("invalid number of arguments for " ++ name ++ ", expected 1, got " ++
          toString args.length) s
    else if name = "distinct" then
      compileDistinctNilGlobal args s
    else if name = "top" ∨ name = "bottom" then
      .panicked nilGlobalPanic
    else
      .err "unimplemented" s
  | .distinctE v, _, s => compileDistinctNilGlobal [.varRef v] s
  | .binary op lhs rhs, out, s =>
    if lhs.isLiteral then .err "unimplemented" s
    else if rhs.isLiteral then .err "unimplemented" s
    else
      let (bid, s) := addNode (.binaryN op none none (some out)) s
      let s := bindEdgeProducer s out bid
      let (le, s) := addEdgeRaw none (some bid) s
      let s := updNode s bid (GNode.setBinLhs le)
      (compileExprNilGlobal lhs le s).andThen fun _ s =>
        let (re, s) := addEdgeRaw none (some bid) s
        let s := updNode s bid (GNode.setBinRhs re)
        compileExprNilGlobal rhs re s
  | _, _, s => .err "unimplemented" s

/-- Draft 2, the field loop of `Compile` (lines 781-792): a fresh edge
and a fresh `compiledField` per non-time field.  The loop constructs
`&compiledField{Field: f, Output: out}` without setting the `global`
back-pointer, so expression compilation runs against a nil statement
pointer (`compileExprNilGlobal`); a field is appended only on
success. -/
def compileFields (s : CState) : List Field → Res Unit
  | [] => .ok () s
  | f :: rest =>
    if isTimeField f then compileFields s rest
    else
      let (ein, s) := addEdgeRaw none none s
      let s := { s with fieldWildcard := none }
      (compileExprNilGlobal f.expr ein s).andThen fun _ s =>
        compileFields
          { s with compiledFields := s.compiledFields ++ [(s.fieldWildcard, ein)] } rest

/-- Draft 2, the initial compiler state of `Compile` (lines 728-729). -/
def initState (stmt : SelectStatement) (opt : CompileOptions) (sysNow : Int) : CState :=
  let c := newCompiler stmt opt sysNow
  { c with sources := c.sources ++ stmt.sources }

/-- Draft 2, the dimension and field stages of `Compile`. -/
def compileBody (stmt : SelectStatement) (opt : CompileOptions) (sysNow : Int) : Res Unit :=
  (parseDims (initState stmt opt sysNow) stmt.dimensions).andThen fun _ s =>
    compileFields s stmt.fields

/-- Draft 2, `Compile` (lines 726-801). -/
def Compile (stmt : SelectStatement) (opt : CompileOptions) (sysNow : Int) : Res Unit :=
  (compileBody stmt opt sysNow).andThen fun _ s =>
    (validateFields s).andThen fun _ s =>
      linkAuxiliaryFields s

end D2

/-! Helper lemmas about the embedding, shared by the claim theorems. -/

/-- A successful outcome is an `ok`. -/
theorem Res.isOk_iff {α : Type} {r : Res α} : r.isOk = true ↔ ∃ a s, r = .ok a s := by
  cases r <;> simp [Res.isOk]

/-- Control equality is transitive. -/
theorem ctrlEq_trans {a b c : CState} (h1 : ctrlEq a b) (h2 : ctrlEq b c) :
    ctrlEq a c := by
  obtain ⟨u1, u2, u3, u4, u5, u6, u7, u8⟩ := h1
  obtain ⟨v1, v2, v3, v4, v5, v6, v7, v8⟩ := h2
  exact ⟨v1.trans u1, v2.trans u2, v3.trans u3, v4.trans u4, v5.trans u5,
    v6.trans u6, v7.trans u7, v8.trans u8⟩

/-- Draft 1: a completed source loop leaves the control state
untouched (it only adds nodes and edges). -/
theorem D1.mergeLoop_ok_ctrlEq :
    ∀ (srcs : List Source) (ref : Option String) (mid : Nat) (s s' : CState),
      D1.mergeLoop ref mid srcs s = .ok () s' → ctrlEq s s' := by
  intro srcs
  induction srcs with
  | nil =>
    intro ref mid s s' h
    simp [D1.mergeLoop] at h
    simp [ctrlEq, h]
  | cons src rest ih =>
    intro ref mid s s' h
    cases src with
    | measurement m =>
      simp [D1.mergeLoop, addNode, addEdgeRaw, updNode] at h
      have h2 := ih ref mid _ s' h
      exact ctrlEq_trans (by simp [ctrlEq]) h2
    | other k =>
      simp [D1.mergeLoop] at h

/-- Draft 1: the source loop succeeds on measurement-only sources. -/
theorem D1.mergeLoop_isOk_of_meas :
    ∀ (srcs : List Source) (ref : Option String) (mid : Nat) (s : CState),
      srcs.all Source.isMeasurement = true →
      (D1.mergeLoop ref mid srcs s).isOk = true := by
  intro srcs
  induction srcs with
  | nil => intro ref mid s _; simp [D1.mergeLoop, Res.isOk]
  | cons src rest ih =>
    intro ref mid s hall
    cases src with
    | measurement m =>
      simp only [List.all_cons, Bool.and_eq_true] at hall
      simp [D1.mergeLoop, addNode, addEdgeRaw, updNode]
      exact ih ref mid _ hall.2
    | other k => simp [Source.isMeasurement] at hall

/-- Sequencing inversion: a successful `andThen` factors through a
successful first step. -/
theorem Res.andThen_ok {α β : Type} {r : Res α} {f : α → CState → Res β} {b : β}
    {s' : CState} (h : r.andThen f = .ok b s') :
    ∃ a s, r = .ok a s ∧ f a s = .ok b s' := by
  cases r with
  | ok a s => exact ⟨a, s, rfl, h⟩
  | err m s => simp [Res.andThen] at h
  | panicked m => simp [Res.andThen] at h

/-- Draft 1: a successful `compileVarRef` leaves the control state
untouched. -/
theorem D1.compileVarRef_ok_ctrlEq {ref : Option String} {node : Option Nat}
    {s s' : CState} {e : Nat} (h : D1.compileVarRef ref node s = .ok e s') :
    ctrlEq s s' := by
  simp only [D1.compileVarRef, addNode] at h
  obtain ⟨a, s2, hm, hrest⟩ := Res.andThen_ok h
  have h1 : ctrlEq s s2 := ctrlEq_trans (by simp [ctrlEq])
    (D1.mergeLoop_ok_ctrlEq _ _ _ _ _ hm)
  simp only [addEdgeRaw, updNode, Res.ok.injEq] at hrest
  exact ctrlEq_trans h1 (by simp [ctrlEq, ← hrest.2])

/-- Draft 1: `compileVarRef` succeeds on measurement-only sources. -/
theorem D1.compileVarRef_isOk_of_meas (ref : Option String) (node : Option Nat)
    (s : CState) (hall : s.sources.all Source.isMeasurement = true) :
    (D1.compileVarRef ref node s).isOk = true := by
  unfold D1.compileVarRef
  have hm := D1.mergeLoop_isOk_of_meas s.sources ref s.nodes.length
    { s with nodes := s.nodes ++ [.merge [] none] } hall
  obtain ⟨a, s2, hm2⟩ := Res.isOk_iff.mp hm
  simp [addNode, hm2, Res.andThen, Res.isOk]

/-- Draft 1: a successful `compileDistinct` appends exactly its output
edge to the function-call list and leaves the rest of the control
state untouched — in particular `OnlySelectors`. -/
theorem D1.compileDistinct_ok_spec {args : List GoExpr} {s s' : CState} {e : Nat}
    (h : D1.compileDistinct args s = .ok e s') :
    s'.sources = s.sources ∧ s'.dimensions = s.dimensions ∧
    s'.interval = s.interval ∧ s'.functionCalls = s.functionCalls ++ [e] ∧
    s'.onlySelectors = s.onlySelectors ∧
    s'.topBottomFunction = s.topBottomFunction ∧
    s'.auxiliaryFields = s.auxiliaryFields ∧ s'.options = s.options := by
  match args with
  | [] => simp [D1.compileDistinct] at h
  | [arg0] =>
    cases arg0
    case varRef x =>
      simp only [D1.compileDistinct, addNode] at h
      obtain ⟨a, s2, hv, hrest⟩ := Res.andThen_ok h
      obtain ⟨c1, c2, c3, c4, c5, c6, c7, c8⟩ :=
        ctrlEq_trans (show ctrlEq s { s with nodes := s.nodes ++ [.distinctN none none] } by
          simp [ctrlEq]) (D1.compileVarRef_ok_ctrlEq hv)
      simp only [updNode, addEdgeRaw, Res.ok.injEq] at hrest
      obtain ⟨he, hs⟩ := hrest
      subst hs
      simp_all
    all_goals simp [D1.compileDistinct] at h
  | a0 :: a1 :: rest => simp [D1.compileDistinct] at h

/-- Draft 1: `compileDistinct` on a bare reference succeeds on
measurement-only sources. -/
theorem D1.compileDistinct_isOk_of_meas (x : String) (s : CState)
    (hall : s.sources.all Source.isMeasurement = true) :
    (D1.compileDistinct [.varRef x] s).isOk = true := by
  simp only [D1.compileDistinct, addNode]
  have hv := D1.compileVarRef_isOk_of_meas (some x) (some s.nodes.length)
    { s with nodes := s.nodes ++ [.distinctN none none] } (by simpa using hall)
  obtain ⟨a, s2, hv2⟩ := Res.isOk_iff.mp hv
  simp [hv2, Res.andThen, Res.isOk]

/-- Draft 1: compiling a bare reference as a field always succeeds. -/
theorem D1.compileExpr_varRef_isOk (x : String) (s : CState) :
    (D1.compileExpr (.varRef x) s).isOk = true := by
  cases ha : s.auxiliaryFields <;>
    simp [D1.compileExpr, ha, addNode, addEdgeRaw, updNode, Res.isOk]

/-- Draft 1: a compiled bare reference makes the auxiliary-fields slot
present and changes no other control field. -/
theorem D1.compileExpr_varRef_spec {x : String} {s s' : CState} {e : Nat}
    (h : D1.compileExpr (.varRef x) s = .ok e s') :
    s'.auxiliaryFields.isSome = true ∧ s'.functionCalls = s.functionCalls ∧
    s'.onlySelectors = s.onlySelectors ∧
    s'.topBottomFunction = s.topBottomFunction := by
  cases ha : s.auxiliaryFields <;>
    simp only [D1.compileExpr, ha, addNode, addEdgeRaw, updNode, Res.ok.injEq] at h <;>
    obtain ⟨he, hs⟩ := h <;> subst hs <;> simp [ha]

/-- Draft 2: a completed source loop leaves the control state
untouched. -/
theorem D2.mergeLoop_ctrlEq_of_ok :
    ∀ (srcs : List Source) (ref : Option String) (mid : Nat) (s s' : CState),
      D2.mergeLoop ref mid srcs s = .ok () s' → ctrlEq s s' := by
  intro srcs
  induction srcs with
  | nil =>
    intro ref mid s s' h
    simp [D2.mergeLoop] at h
    simp [ctrlEq, h]
  | cons src rest ih =>
    intro ref mid s s' h
    cases src with
    | measurement m =>
      simp [D2.mergeLoop, addNode, addEdgeRaw, updNode] at h
      have h2 := ih ref mid _ s' h
      exact ctrlEq_trans (by simp [ctrlEq]) h2
    | other k =>
      simp [D2.mergeLoop] at h

/-- Draft 2: a successful `compileVarRef` leaves the control state
untouched. -/
theorem D2.compileVarRef_ctrlEq_of_ok {ref : Option String} {out : Nat}
    {s s' : CState} {u : Unit} (h : D2.compileVarRef ref out s = .ok u s') :
    ctrlEq s s' := by
  simp only [D2.compileVarRef, addNode] at h
  obtain ⟨a, s2, hm, hrest⟩ := Res.andThen_ok h
  have h1 : ctrlEq s s2 := ctrlEq_trans (by simp [ctrlEq])
    (D2.mergeLoop_ctrlEq_of_ok _ _ _ _ _ hm)
  simp only [bindEdgeProducer, Res.ok.injEq] at hrest
  exact ctrlEq_trans h1 (by simp [ctrlEq, ← hrest.2])

/-- Draft 1: one parsed dimension entry touches only `dimensions` and
`interval`. -/
theorem D1.parseDim_ok_dimFrame {s s' : CState} {d : Dimension} {u : Unit}
    (h : D1.parseDim s d = .ok u s') : dimFrame s s' := by
  obtain ⟨expr⟩ := d
  unfold D1.parseDim at h
  repeat' split at h
  all_goals
    first
    | (simp only [Res.ok.injEq] at h
       first
       | (obtain ⟨-, hs⟩ := h
          subst hs)
       | subst h
       simp [dimFrame])
    | simp at h
  all_goals split_ifs at h with hdv
  all_goals
    first
    | (simp only [Res.ok.injEq] at h
       first
       | (obtain ⟨-, hs⟩ := h
          subst hs)
       | subst h
       simp [dimFrame])
    | simp at h

/-- Draft 1: dimension parsing touches only `dimensions` and
`interval`. -/
theorem D1.parseDims_ok_dimFrame :
    ∀ (dims : List Dimension) (s s' : CState) (u : Unit),
      D1.parseDims s dims = .ok u s' → dimFrame s s' := by
  intro dims
  induction dims with
  | nil =>
    intro s s' u h
    simp [D1.parseDims] at h
    simp [dimFrame, h]
  | cons d rest ih =>
    intro s s' u h
    simp only [D1.parseDims] at h
    obtain ⟨a, s2, hd, hrest⟩ := Res.andThen_ok h
    have f1 := D1.parseDim_ok_dimFrame hd
    have f2 := ih _ _ _ hrest
    obtain ⟨u1, u2, u3, u4, u5, u6, u7, u8⟩ := f1
    obtain ⟨v1, v2, v3, v4, v5, v6, v7, v8⟩ := f2
    exact ⟨v1.trans u1, v2.trans u2, v3.trans u3, v4.trans u4, v5.trans u5,
      v6.trans u6, v7.trans u7, v8.trans u8⟩

/-- Draft 1: dimension parsing distributes over list append. -/
theorem D1.parseDims_append :
    ∀ (l1 l2 : List Dimension) (s : CState),
      D1.parseDims s (l1 ++ l2) =
        (D1.parseDims s l1).andThen fun _ s => D1.parseDims s l2 := by
  intro l1
  induction l1 with
  | nil => intro l2 s; simp [D1.parseDims, Res.andThen]
  | cons d rest ih =>
    intro l2 s
    simp only [List.cons_append, D1.parseDims]
    cases D1.parseDim s d <;> simp [Res.andThen, ih]

/-- Draft 2: a successful `compileDistinct` appends its output edge to
the function-call list exactly when it is not nested, and leaves the
rest of the control state untouched. -/
theorem D2.compileDistinct_spec_of_ok {args : List GoExpr} {out : Nat} {nested : Bool}
    {s s' : CState} {u : Unit} (h : D2.compileDistinct args out nested s = .ok u s') :
    s'.functionCalls = (if nested then s.functionCalls else s.functionCalls ++ [out]) ∧
    s'.onlySelectors = s.onlySelectors ∧
    s'.topBottomFunction = s.topBottomFunction ∧
    s'.auxiliaryFields = s.auxiliaryFields ∧ s'.sources = s.sources := by
  match args with
  | [] => simp [D2.compileDistinct] at h
  | [arg0] =>
    cases arg0
    case varRef x =>
      simp only [D2.compileDistinct, addNode, bindEdgeProducer, addEdgeRaw,
        updNode] at h
      cases nested <;>
        simp only [Bool.false_eq_true, if_false, if_true, ite_self] at h <;>
        obtain ⟨c1, c2, c3, c4, c5, c6, c7, c8⟩ := D2.compileVarRef_ctrlEq_of_ok h <;>
        simp_all
    all_goals simp [D2.compileDistinct] at h
  | a0 :: a1 :: rest => simp [D2.compileDistinct] at h

/-- Draft 1: a successful auxiliary-field linking ends with the
auxiliary slot present or at least one registered call. -/
theorem D1.linkAux_ok_disj {s c : CState} {u : Unit}
    (h : D1.linkAuxiliaryFields s = .ok u c) :
    c.auxiliaryFields.isSome = true ∨ c.functionCalls ≠ [] := by
  unfold D1.linkAuxiliaryFields at h
  split at h
  case h_1 heq =>
    split_ifs at h with hl <;>
      first
      | (simp only [Res.ok.injEq] at h
         first
         | (obtain ⟨-, hs⟩ := h
            subst hs)
         | subst h
         right
         simpa [← List.length_eq_zero] using hl)
      | simp at h
  case h_2 aid heq =>
    split_ifs at h with h1 h2 <;>
      first
      | (split at h <;>
          first
          | (simp only [edgeInsert, addEdgeRaw, updNode, Res.ok.injEq] at h
             first
             | (obtain ⟨-, hs⟩ := h
                subst hs)
             | subst h
             left
             simp [heq])
          | (obtain ⟨a, s2, hv, hrest⟩ := Res.andThen_ok h
             obtain ⟨c1, c2, c3, c4, c5, c6, c7, c8⟩ := D1.compileVarRef_ok_ctrlEq hv
             simp only [updNode, Res.ok.injEq] at hrest
             first
             | (obtain ⟨-, hs⟩ := hrest
                subst hs)
             | subst hrest
             left
             simp [c7, heq]))
      | simp at h

/-- Draft 2: a successful auxiliary-field linking ends with the
auxiliary slot present or at least one registered call. -/
theorem D2.linkAux_disj_of_ok {s c : CState} {u : Unit}
    (h : D2.linkAuxiliaryFields s = .ok u c) :
    c.auxiliaryFields.isSome = true ∨ c.functionCalls ≠ [] := by
  unfold D2.linkAuxiliaryFields at h
  split at h
  case h_1 heq =>
    split_ifs at h with hl <;>
      first
      | (simp only [Res.ok.injEq] at h
         first
         | (obtain ⟨-, hs⟩ := h
            subst hs)
         | subst h
         right
         simpa [← List.length_eq_zero] using hl)
      | simp at h
  case h_2 aid heq =>
    split_ifs at h with h1 h2 <;>
      first
      | (split at h <;>
          first
          | (simp only [edgeInsert, addEdgeRaw, updNode, Res.ok.injEq] at h
             first
             | (obtain ⟨-, hs⟩ := h
                subst hs)
             | subst h
             left
             simp [heq])
          | (simp only [addEdgeRaw, updNode] at h
             obtain ⟨c1, c2, c3, c4, c5, c6, c7, c8⟩ := D2.compileVarRef_ctrlEq_of_ok h
             left
             simp_all))
      | simp at h

/-- Draft 1: a `time()` dimension entry with a duration-literal first
argument and at most two arguments, reached when the interval duration
is already nonzero, is rejected as a duplicate. -/
theorem D1.parseDim_dup_time (s : CState) (dv : Int) (rest : List GoExpr)
    (hlen : rest.length ≤ 1) (hdur : s.interval.duration ≠ 0) :
    D1.parseDim s ⟨.call "time" (.durationLit dv :: rest)⟩ =
      .err "multiple time dimensions not allowed" s := by
  simp [D1.parseDim, hdur, Nat.not_lt.mpr hlen]

/-- Draft 1: the field loop on a single bare non-time reference is the
compilation of that reference followed by output collection. -/
theorem D1.compileFields_singleVarRef (y : String) (hy : y ≠ "time") (s : CState) :
    D1.compileFields s [⟨.varRef y⟩] =
      (D1.compileExpr (.varRef y) s).andThen fun out s2 =>
        .ok () { s2 with outputEdges := s2.outputEdges ++ [out] } := by
  simp only [D1.compileFields, isTimeField]
  rw [if_neg (by simpa using hy)]

/-! The claim theorems. -/

/-- C2: at a source list containing a non-measurement source, draft 1's
`compileVarRef` aborts the process (an "unimplemented" panic) while
draft 2 returns the "unimplemented" error value to the caller; on a
measurement-only source list neither fails — the kind check is made per
source. -/
theorem varRef_nonMeasurement_draft1_aborts_draft2_errors :
    (D1.compileVarRef (some "value") none
        { sources := [.measurement "cpu", .other "subquery"] }).panicMsg =
      some "unimplemented" ∧
    (D2.compileVarRef (some "value") 0
        { sources := [.measurement "cpu", .other "subquery"] }).errMsg =
      some "unimplemented" ∧
    (D1.compileVarRef (some "value") none
        { sources := [.measurement "cpu", .measurement "mem"] }).isOk = true ∧
    (D2.compileVarRef (some "value") 0
        { sources := [.measurement "cpu", .measurement "mem"] }).isOk = true := by
  decide

/-- C3 counterexample: a binary expression with one literal side and
one non-literal side does not compile successfully — both drafts
return the "unimplemented" error for `value + 2`. -/
theorem binary_literal_side_returns_unimplemented_cx :
    (D1.Compile ⟨[.measurement "cpu"],
        [⟨.binary "+" (.varRef "value") (.integerLit 2)⟩], []⟩ ⟨1⟩ 0).errMsg =
      some "unimplemented" ∧
    (D2.Compile ⟨[.measurement "cpu"],
        [⟨.binary "+" (.varRef "value") (.integerLit 2)⟩], []⟩ ⟨1⟩ 0).errMsg =
      some "unimplemented" := by
  decide

/-- C3 amended: whenever either side of a binary expression is a
literal, both drafts return the "unimplemented" error without
compiling either side — the state (and hence the graph) is returned
unchanged; no folding of the literal takes place. -/
theorem binary_literal_side_unimplemented (op : String) (l r : GoExpr)
    (out : Nat) (s : CState) (h : (l.isLiteral || r.isLiteral) = true) :
    D1.compileExpr (.binary op l r) s = .err "unimplemented" s ∧
    D2.compileExpr (.binary op l r) out s = .err "unimplemented" s := by
  rcases (Bool.or_eq_true _ _).mp h with hl | hr
  · constructor <;> simp [D1.compileExpr, D2.compileExpr, hl]
  · cases hlit : l.isLiteral
    · constructor <;> simp [D1.compileExpr, D2.compileExpr, hlit, hr]
    · constructor <;> simp [D1.compileExpr, D2.compileExpr, hlit]

/-- C3 amended, witness at `value + 2`. -/
theorem binary_literal_side_unimplemented_witness :
    D1.compileExpr (.binary "+" (.varRef "value") (.integerLit 2)) {} =
      .err "unimplemented" {} ∧
    D2.compileExpr (.binary "+" (.varRef "value") (.integerLit 2)) 0 {} =
      .err "unimplemented" {} :=
  binary_literal_side_unimplemented "+" (.varRef "value") (.integerLit 2) 0 {}
    (by decide)

/-- C9: on `GROUP BY time(0s, 1m)` the offset computation takes the
literal modulo the zero bucket duration, so `Compile` (both drafts)
does not return an error value but panics — a runtime integer division
by zero. -/
theorem time_zero_duration_offset_panics :
    D1.Compile ⟨[.measurement "cpu"], [⟨.varRef "value"⟩],
        [⟨.call "time" [.durationLit 0, .durationLit 60000000000]⟩]⟩ ⟨5⟩ 0 =
      .panicked "runtime error: integer divide by zero" ∧
    D2.Compile ⟨[.measurement "cpu"], [⟨.varRef "value"⟩],
        [⟨.call "time" [.durationLit 0, .durationLit 60000000000]⟩]⟩ ⟨5⟩ 0 =
      .panicked "runtime error: integer divide by zero" := by
  decide

/-- C8: with an explicit (non-zero) `now` option, compilation does not
depend on the ambient clock: two runs with different system times give
identical results — graphs and interval included. -/
theorem compile_deterministic_for_explicit_now (stmt : SelectStatement)
    (opt : CompileOptions) (n1 n2 : Int) (h : opt.now ≠ 0) :
    D1.Compile stmt opt n1 = D1.Compile stmt opt n2 := by
  have hinit : D1.initState stmt opt n1 = D1.initState stmt opt n2 := by
    simp [D1.initState, D1.newCompiler, h]
  simp [D1.Compile, D1.compileBody, hinit]

/-- C8 witness: a statement whose offset uses `now()`, compiled with
explicit `now := 7` under two different ambient clocks. -/
theorem compile_deterministic_for_explicit_now_witness :
    D1.Compile ⟨[.measurement "cpu"], [⟨.call "mean" [.varRef "value"]⟩],
        [⟨.call "time" [.durationLit 300000000000, .call "now" []]⟩]⟩ ⟨7⟩ 100 =
      D1.Compile ⟨[.measurement "cpu"], [⟨.call "mean" [.varRef "value"]⟩],
        [⟨.call "time" [.durationLit 300000000000, .call "now" []]⟩]⟩ ⟨7⟩ 200 :=
  compile_deterministic_for_explicit_now _ ⟨7⟩ 100 200 (by decide)

/-- C6 counterexample: two `time()` dimension entries, each with a
duration-literal first argument, where the first has duration `0s` —
compilation succeeds (no "multiple time dimensions not allowed") and
the second entry's duration is accepted. -/
theorem zero_duration_time_dimensions_both_accepted_cx :
    (D1.Compile ⟨[.measurement "cpu"], [⟨.varRef "value"⟩],
        [⟨.call "time" [.durationLit 0]⟩,
         ⟨.call "time" [.durationLit 300000000000]⟩]⟩ ⟨1⟩ 0).isOk = true ∧
    (D1.Compile ⟨[.measurement "cpu"], [⟨.varRef "value"⟩],
        [⟨.call "time" [.durationLit 0]⟩,
         ⟨.call "time" [.durationLit 300000000000]⟩]⟩ ⟨1⟩ 0).okDuration =
      some 300000000000 := by
  decide

/-- C6 amended: a `time()` entry (duration-literal first argument, at
most two arguments) is rejected with "multiple time dimensions not
allowed" exactly when it is reached while the interval duration set by
an earlier entry is nonzero; hence at most one nonzero-duration
`time()` entry is accepted, but a zero-duration entry does not block a
later one. -/
theorem multiple_time_dimensions_error_amended :
    (∀ (s : CState) (dv : Int) (rest : List GoExpr), rest.length ≤ 1 →
      s.interval.duration ≠ 0 →
      D1.parseDim s ⟨.call "time" (.durationLit dv :: rest)⟩ =
        .err "multiple time dimensions not allowed" s) ∧
    (∀ (srcs : List Source) (fields : List Field) (pre post : List Dimension)
        (dv : Int) (rest : List GoExpr) (opt : CompileOptions) (n d : Int),
      rest.length ≤ 1 →
      (D1.parseDims (D1.initState ⟨srcs, fields,
          pre ++ ⟨.call "time" (.durationLit dv :: rest)⟩ :: post⟩ opt n)
        pre).okDuration = some d →
      d ≠ 0 →
      (D1.Compile ⟨srcs, fields,
          pre ++ ⟨.call "time" (.durationLit dv :: rest)⟩ :: post⟩ opt n).errMsg =
        some "multiple time dimensions not allowed") := by
  constructor
  · exact fun s dv rest hlen hdur => D1.parseDim_dup_time s dv rest hlen hdur
  · intro srcs fields pre post dv rest opt n d hlen hpre hd
    cases hp : D1.parseDims (D1.initState ⟨srcs, fields,
        pre ++ ⟨.call "time" (.durationLit dv :: rest)⟩ :: post⟩ opt n) pre with
    | ok u s =>
      rw [hp] at hpre
      simp only [Res.okDuration, Option.some.injEq] at hpre
      have herr := D1.parseDim_dup_time s dv rest hlen (by rw [hpre]; exact hd)
      unfold D1.Compile D1.compileBody
      rw [D1.parseDims_append, hp]
      simp only [Res.andThen, D1.parseDims, herr, Res.errMsg]
    | err m s =>
      rw [hp] at hpre
      simp [Res.okDuration] at hpre
    | panicked m =>
      rw [hp] at hpre
      simp [Res.okDuration] at hpre

/-- C6 amended, witness: `GROUP BY time(5m), time(1m)` fails with the
duplicate-dimension error. -/
theorem multiple_time_dimensions_error_amended_witness :
    (D1.Compile ⟨[.measurement "cpu"], [⟨.varRef "value"⟩],
        [⟨.call "time" [.durationLit 300000000000]⟩] ++
          ⟨.call "time" [.durationLit 60000000000]⟩ :: []⟩ ⟨1⟩ 0).errMsg =
      some "multiple time dimensions not allowed" :=
  multiple_time_dimensions_error_amended.2 [.measurement "cpu"] [⟨.varRef "value"⟩]
    [⟨.call "time" [.durationLit 300000000000]⟩] [] 60000000000 [] ⟨1⟩ 0
    300000000000 (by decide) (by decide) (by decide)

/-- C7: the compiled interval of `time(d, o)` — duration-literal
offset gives `o mod d` (Go's truncated `%`); an absolute time literal
gives the literal minus its truncation to `d`; `now()` gives the
configured now minus its truncation to `d`; and `GROUP BY
time(5m, 1m)` compiles to duration 5 minutes, offset 1 minute. -/
theorem time_dimension_interval_semantics :
    (∀ (s : CState) (d o : Int), s.interval.duration = 0 → d ≠ 0 →
      D1.parseDim s ⟨.call "time" [.durationLit d, .durationLit o]⟩ =
        .ok () { s with interval := ⟨d, Int.tmod o d⟩ }) ∧
    (∀ (s : CState) (d t : Int), s.interval.duration = 0 → d ≠ 0 →
      D1.parseDim s ⟨.call "time" [.durationLit d, .timeLit t]⟩ =
        .ok () { s with interval := ⟨d, t - timeTruncate t d⟩ }) ∧
    (∀ (s : CState) (d : Int), s.interval.duration = 0 → d ≠ 0 →
      D1.parseDim s ⟨.call "time" [.durationLit d, .call "now" []]⟩ =
        .ok () { s with interval :=
          ⟨d, s.options.now - timeTruncate s.options.now d⟩ }) ∧
    (D1.Compile ⟨[.measurement "cpu"], [⟨.call "mean" [.varRef "value"]⟩],
        [⟨.call "time" [.durationLit 300000000000, .durationLit 60000000000]⟩]⟩
        ⟨1⟩ 0).okInterval = some ⟨300000000000, 60000000000⟩ := by
  refine ⟨?_, ?_, ?_, ?_⟩
  · intro s d o h0 hd
    simp [D1.parseDim, h0, hd]
  · intro s d t h0 hd
    simp [D1.parseDim, h0]
  · intro s d h0 hd
    simp [D1.parseDim, h0]
  · decide

/-- C7 witness: the three offset forms evaluated at concrete inputs
(5-minute buckets; offsets `1m`, the absolute time 90 s after the zero
time, and `now = 7`). -/
theorem time_dimension_interval_semantics_witness :
    D1.parseDim {} ⟨.call "time" [.durationLit 300000000000,
        .durationLit 60000000000]⟩ =
      .ok () { ({} : CState) with interval :=
        ⟨300000000000, Int.tmod 60000000000 300000000000⟩ } ∧
    D1.parseDim {} ⟨.call "time" [.durationLit 300000000000,
        .timeLit 90000000000]⟩ =
      .ok () { ({} : CState) with interval :=
        ⟨300000000000, 90000000000 - timeTruncate 90000000000 300000000000⟩ } ∧
    D1.parseDim { options := ⟨7⟩ } ⟨.call "time" [.durationLit 300000000000,
        .call "now" []]⟩ =
      .ok () { ({ options := ⟨7⟩ } : CState) with interval :=
        ⟨300000000000, 7 - timeTruncate 7 300000000000⟩ } :=
  ⟨time_dimension_interval_semantics.1 {} 300000000000 60000000000 (by decide)
      (by decide),
    time_dimension_interval_semantics.2.1 {} 300000000000 90000000000 (by decide)
      (by decide),
    time_dimension_interval_semantics.2.2.1 { options := ⟨7⟩ } 300000000000
      (by decide) (by decide)⟩

/-- C5: top/bottom exclusivity.  Per-call: compiling a `top`/`bottom`
call while `TopBottomFunction` is already set fails with the recorded
name's message.  Whole-statement: if, after all fields compile, more
than one function call is registered and a top/bottom selector is
active, `Compile` fails with the same message. -/
theorem top_bottom_exclusive_with_other_functions :
    (∀ (name : String) (args : List GoExpr) (s : CState),
      s.topBottomFunction ≠ "" →
      D1.compileTopBottom name args s =
        .err ("selector function " ++ s.topBottomFunction ++
          "() cannot be combined with other functions") s) ∧
    (∀ (stmt : SelectStatement) (opt : CompileOptions) (n : Int) (k : Nat)
        (f : String),
      (D1.compileBody stmt opt n).okCalls.map List.length = some k → 1 < k →
      (D1.compileBody stmt opt n).okTopBottom = some f → f ≠ "" →
      (D1.Compile stmt opt n).errMsg =
        some ("selector function " ++ f ++
          "() cannot be combined with other functions")) := by
  constructor
  · intro name args s h
    simp [D1.compileTopBottom, h]
  · intro stmt opt n k f hk hgt hf hne
    cases hb : D1.compileBody stmt opt n with
    | ok u s =>
      rw [hb] at hk hf
      simp only [Res.okTopBottom, Option.some.injEq] at hf
      subst hf
      have hklen : s.functionCalls.length = k := by
        simpa [Res.okCalls] using hk
      have hgt2 : 1 < s.functionCalls.length := by rw [hklen]; exact hgt
      unfold D1.Compile
      rw [hb]
      have hval : D1.validateFields s =
          .err ("selector function " ++ s.topBottomFunction ++
            "() cannot be combined with other functions") s := by
        simp [D1.validateFields, hgt2, hne]
      simp [Res.andThen, hval, Res.errMsg]
    | err m s => rw [hb] at hk; simp [Res.okCalls] at hk
    | panicked m => rw [hb] at hk; simp [Res.okCalls] at hk

/-- C5 witness: `SELECT mean(value), top(value, 3)` — the conflict is
only visible in whole-statement validation; and a direct second
`top()` call against a state that already recorded `bottom`. -/
theorem top_bottom_exclusive_with_other_functions_witness :
    D1.compileTopBottom "top" [] { topBottomFunction := "bottom" } =
      .err ("selector function " ++ "bottom" ++
        "() cannot be combined with other functions")
        { topBottomFunction := "bottom" } ∧
    (D1.Compile ⟨[.measurement "cpu"],
        [⟨.call "mean" [.varRef "value"]⟩,
         ⟨.call "top" [.varRef "value", .integerLit 3]⟩], []⟩ ⟨1⟩ 0).errMsg =
      some ("selector function " ++ "top" ++
        "() cannot be combined with other functions") :=
  ⟨top_bottom_exclusive_with_other_functions.1 "top" []
      { topBottomFunction := "bottom" } (by decide),
    top_bottom_exclusive_with_other_functions.2 _ ⟨1⟩ 0 2 "top" (by decide)
      (by decide) (by decide) (by decide)⟩

/-- C4 counterexample: for `SELECT max(value), value FROM cpu` draft 1
compiles successfully with the auxiliary-fields slot present AND one
registered function call — both sides of the claimed "exactly one of"
hold at once; and the zero-field error message is "at least 1 …", not
"at least one …". -/
theorem aux_and_function_call_both_present_cx :
    (D1.Compile ⟨[.measurement "cpu"],
        [⟨.call "max" [.varRef "value"]⟩, ⟨.varRef "value"⟩], []⟩ ⟨1⟩
        0).okAuxPresent = some true ∧
    (D1.Compile ⟨[.measurement "cpu"],
        [⟨.call "max" [.varRef "value"]⟩, ⟨.varRef "value"⟩], []⟩ ⟨1⟩
        0).okCalls.map List.length = some 1 ∧
    (D1.Compile ⟨[.measurement "cpu"], [⟨.varRef "time"⟩], []⟩ ⟨1⟩ 0).errMsg =
      some "at least 1 non-time field must be queried" ∧
    "at least 1 non-time field must be queried" ≠
      "at least one non-time field must be queried" := by
  decide

/-- C4 amended: at the end of every successful compilation at least
one of {auxiliary fields present} or {≥ 1 registered function call}
holds (both may hold together) — proved for draft 1's whole `Compile`
and for draft 2 at its `linkAuxiliaryFields`, the function that
establishes the invariant (draft 2's field loop leaves the
`compiledField.global` pointer nil, so no draft-2 run with a
value-producing field completes); and when neither holds after the
field stage, compilation fails with "at least 1 non-time field must be
queried", in both drafts. -/
theorem aux_or_function_call_after_success :
    (∀ (stmt : SelectStatement) (opt : CompileOptions) (n : Int),
      (D1.Compile stmt opt n).isOk = true →
      (D1.Compile stmt opt n).okAuxPresent = some true ∨
      (D1.Compile stmt opt n).okCalls ≠ some []) ∧
    (∀ (s c : CState) (u : Unit),
      D2.linkAuxiliaryFields s = .ok u c →
      c.auxiliaryFields.isSome = true ∨ c.functionCalls ≠ []) ∧
    (∀ (stmt : SelectStatement) (opt : CompileOptions) (n : Int),
      (D1.compileBody stmt opt n).isOk = true →
      (D1.compileBody stmt opt n).okAuxPresent = some false →
      (D1.compileBody stmt opt n).okCalls = some [] →
      (D1.Compile stmt opt n).errMsg =
        some "at least 1 non-time field must be queried") ∧
    (∀ (stmt : SelectStatement) (opt : CompileOptions) (n : Int),
      (D2.compileBody stmt opt n).isOk = true →
      (D2.compileBody stmt opt n).okAuxPresent = some false →
      (D2.compileBody stmt opt n).okCalls = some [] →
      (D2.Compile stmt opt n).errMsg =
        some "at least 1 non-time field must be queried") := by
  refine ⟨?_, ?_, ?_, ?_⟩
  · intro stmt opt n h
    obtain ⟨v, c, heq⟩ := Res.isOk_iff.mp h
    unfold D1.Compile at heq
    obtain ⟨u1, s1, hb, h1⟩ := Res.andThen_ok heq
    obtain ⟨u2, s2, hval, hlink⟩ := Res.andThen_ok h1
    have hd := D1.linkAux_ok_disj hlink
    unfold D1.Compile
    rw [hb]
    simp only [Res.andThen]
    rw [hval]
    simp only [Res.andThen]
    rw [hlink]
    rcases hd with hd | hd
    · left; simp [Res.okAuxPresent, hd]
    · right; simp [Res.okCalls, hd]
  · exact fun s c u h => D2.linkAux_disj_of_ok h
  · intro stmt opt n h haux hcalls
    obtain ⟨v, s, hb⟩ := Res.isOk_iff.mp h
    rw [hb] at haux hcalls
    simp only [Res.okAuxPresent, Res.okCalls, Option.some.injEq] at haux hcalls
    unfold D1.Compile
    rw [hb]
    have hvali : D1.validateFields s = .ok () s := by
      simp [D1.validateFields, hcalls]
    have hnone : s.auxiliaryFields = none := by
      cases hz : s.auxiliaryFields
      · rfl
      · rw [hz] at haux; simp at haux
    have hlink : D1.linkAuxiliaryFields s =
        .err "at least 1 non-time field must be queried" s := by
      unfold D1.linkAuxiliaryFields
      rw [hnone]
      simp [hcalls]
    simp [Res.andThen, hvali, hlink, Res.errMsg]
  · intro stmt opt n h haux hcalls
    obtain ⟨v, s, hb⟩ := Res.isOk_iff.mp h
    rw [hb] at haux hcalls
    simp only [Res.okAuxPresent, Res.okCalls, Option.some.injEq] at haux hcalls
    unfold D2.Compile
    rw [hb]
    have hvali : D2.validateFields s = .ok () s := by
      simp [D2.validateFields, hcalls]
    have hnone : s.auxiliaryFields = none := by
      cases hz : s.auxiliaryFields
      · rfl
      · rw [hz] at haux; simp at haux
    have hlink : D2.linkAuxiliaryFields s =
        .err "at least 1 non-time field must be queried" s := by
      unfold D2.linkAuxiliaryFields
      rw [hnone]
      simp [hcalls]
    simp [Res.andThen, hvali, hlink, Res.errMsg]

/-- C4 amended, witness: the selector-plus-bare-field statement for
the draft-1 disjunction, a one-call state for draft 2's linking
invariant, and the bare-`time` statement for the error in both
drafts. -/
theorem aux_or_function_call_after_success_witness :
    ((D1.Compile ⟨[.measurement "cpu"],
        [⟨.call "max" [.varRef "value"]⟩, ⟨.varRef "value"⟩], []⟩ ⟨1⟩
        0).okAuxPresent = some true ∨
      (D1.Compile ⟨[.measurement "cpu"],
        [⟨.call "max" [.varRef "value"]⟩, ⟨.varRef "value"⟩], []⟩ ⟨1⟩
        0).okCalls ≠ some []) ∧
    (({ functionCalls := [5] } : CState).auxiliaryFields.isSome = true ∨
      ({ functionCalls := [5] } : CState).functionCalls ≠ []) ∧
    (D1.Compile ⟨[.measurement "cpu"], [⟨.varRef "time"⟩], []⟩ ⟨1⟩ 0).errMsg =
      some "at least 1 non-time field must be queried" ∧
    (D2.Compile ⟨[.measurement "cpu"], [⟨.varRef "time"⟩], []⟩ ⟨1⟩ 0).errMsg =
      some "at least 1 non-time field must be queried" :=
  ⟨aux_or_function_call_after_success.1 _ ⟨1⟩ 0 (by decide),
    aux_or_function_call_after_success.2.1 { functionCalls := [5] }
      { functionCalls := [5] } () (by decide),
    aux_or_function_call_after_success.2.2.1 _ ⟨1⟩ 0 (by decide) (by decide)
      (by decide),
    aux_or_function_call_after_success.2.2.2 _ ⟨1⟩ 0 (by decide) (by decide)
      (by decide)⟩

/-- C1 counterexample: in draft 1, compiling
`SELECT count(distinct(value)) FROM cpu` registers TWO function-call
output edges — the nested distinct registers itself and the enclosing
count registers again. -/
theorem countDistinct_draft1_registers_two_calls :
    (D1.Compile ⟨[.measurement "cpu"],
        [⟨.call "count" [.call "distinct" [.varRef "value"]]⟩], []⟩ ⟨1⟩
        0).okCalls.map List.length = some 2 := by
  decide

/-- C1 amended: in draft 2 a compiled `count(distinct(x))` field
appends exactly one entry (the count's output edge) to the
function-call list; in draft 1 it appends two, because the nested
distinct also registers itself. -/
theorem countDistinct_registration_amended :
    (∀ (x : String) (out : Nat) (s : CState),
      (D2.compileFunction "count" [.call "distinct" [.varRef x]] out s).isOk =
        true →
      (D2.compileFunction "count" [.call "distinct" [.varRef x]] out s).okCalls =
        some (s.functionCalls ++ [out])) ∧
    (∀ (x : String) (s : CState),
      (D1.compileFunction "count" [.call "distinct" [.varRef x]] s).isOk = true →
      (D1.compileFunction "count" [.call "distinct" [.varRef x]] s).okCalls.map
        List.length = some (s.functionCalls.length + 2)) := by
  constructor
  · intro x out s h
    obtain ⟨v, s', heq⟩ := Res.isOk_iff.mp h
    rw [heq]
    simp only [Res.okCalls, Option.some.injEq]
    simp only [D2.compileFunction, addNode, bindEdgeProducer, addEdgeRaw,
      updNode] at heq
    norm_num at heq
    have spec := D2.compileDistinct_spec_of_ok heq
    simp only [if_true, if_pos] at spec
    exact spec.1.trans (by simp)
  · intro x s h
    obtain ⟨v, s', heq⟩ := Res.isOk_iff.mp h
    rw [heq]
    simp only [Res.okCalls, Option.map_some]
    simp only [D1.compileFunction] at heq
    norm_num at heq
    obtain ⟨inp, s1, hin, hrest⟩ := Res.andThen_ok heq
    obtain ⟨dres, s1', hdist, hok⟩ := Res.andThen_ok hin
    simp only [Res.ok.injEq] at hok
    obtain ⟨hinp, hs1⟩ := hok
    subst hinp
    subst hs1
    have dspec := D1.compileDistinct_ok_spec hdist
    simp only [addNode, updNode, bindEdgeConsumer, addEdgeRaw, D1.functionFlags,
      Res.andThen] at hrest
    norm_num at hrest
    first
    | (obtain ⟨hv, hs'⟩ := hrest
       subst hs')
    | subst hrest
    | (simp only [Res.ok.injEq] at hrest
       obtain ⟨hv, hs'⟩ := hrest
       subst hs')
    simp [dspec.2.2.2.1]

/-- C1 amended, witness: `count(distinct(value))` over the `cpu`
measurement — one registered call in draft 2, two in draft 1. -/
theorem countDistinct_registration_amended_witness :
    (D2.compileFunction "count" [.call "distinct" [.varRef "value"]] 0
        { sources := [.measurement "cpu"] }).okCalls = some [0] ∧
    (D1.compileFunction "count" [.call "distinct" [.varRef "value"]]
        { sources := [.measurement "cpu"] }).okCalls.map List.length = some 2 :=
  ⟨countDistinct_registration_amended.1 "value" 0 { sources := [.measurement "cpu"] }
      (by decide),
    countDistinct_registration_amended.2 "value" { sources := [.measurement "cpu"] }
      (by decide)⟩

/-- C10: draft 1's `compileDistinct` leaves `OnlySelectors` unchanged
while registering exactly one function call; consequently a statement
combining one `distinct(x)` field with a bare reference passes the
aggregate/non-aggregate mixing check and compiles successfully. -/
theorem distinct_keeps_onlySelectors_and_mixes_with_fields :
    (∀ (args : List GoExpr) (s : CState),
      (D1.compileDistinct args s).isOk = true →
      (D1.compileDistinct args s).okOnlySelectors = some s.onlySelectors ∧
      (D1.compileDistinct args s).okCalls.map List.length =
        some (s.functionCalls.length + 1)) ∧
    (∀ (x y : String) (srcs : List Source) (dims : List Dimension)
        (opt : CompileOptions) (n : Int),
      y ≠ "time" →
      srcs.all Source.isMeasurement = true →
      (D1.parseDims (D1.initState ⟨srcs, [⟨.call "distinct" [.varRef x]⟩,
          ⟨.varRef y⟩], dims⟩ opt n) dims).isOk = true →
      (D1.Compile ⟨srcs, [⟨.call "distinct" [.varRef x]⟩, ⟨.varRef y⟩], dims⟩
          opt n).isOk = true) := by
  constructor
  · intro args s h
    obtain ⟨e, s', heq⟩ := Res.isOk_iff.mp h
    rw [heq]
    have spec := D1.compileDistinct_ok_spec heq
    simp [Res.okOnlySelectors, Res.okCalls, spec.2.2.2.1, spec.2.2.2.2.1]
  · intro x y srcs dims opt n hy hall hdims
    obtain ⟨u, s, hp⟩ := Res.isOk_iff.mp hdims
    obtain ⟨f1, f2, f3, f4, f5, f6, f7, f8⟩ :=
      D1.parseDims_ok_dimFrame dims _ _ _ hp
    have hs_sources : s.sources = srcs := by
      rw [f1]; simp [D1.initState, D1.newCompiler]
    have hs_calls : s.functionCalls = [] := by
      rw [f2]; simp [D1.initState, D1.newCompiler]
    have hs_onlySel : s.onlySelectors = true := by
      rw [f3]; simp [D1.initState, D1.newCompiler]
    have hdok := D1.compileDistinct_isOk_of_meas x s
      (by rw [hs_sources]; exact hall)
    obtain ⟨e1, s1, hde⟩ := Res.isOk_iff.mp hdok
    have dspec := D1.compileDistinct_ok_spec hde
    have hvok := D1.compileExpr_varRef_isOk y
      { s1 with outputEdges := s1.outputEdges ++ [e1] }
    obtain ⟨e2, s2, hve⟩ := Res.isOk_iff.mp hvok
    have vspec := D1.compileExpr_varRef_spec hve
    have hfields : D1.compileFields s
        [⟨.call "distinct" [.varRef x]⟩, ⟨.varRef y⟩] =
        .ok () { s2 with outputEdges := s2.outputEdges ++ [e2] } := by
      have step1 : D1.compileFields s
          [⟨.call "distinct" [.varRef x]⟩, ⟨.varRef y⟩] =
          (D1.compileDistinct [.varRef x] s).andThen fun out s =>
            D1.compileFields { s with outputEdges := s.outputEdges ++ [out] }
              [⟨.varRef y⟩] := rfl
      rw [step1, hde]
      simp only [Res.andThen]
      rw [D1.compileFields_singleVarRef y hy, hve]
      rfl
    have hcalls2 : s2.functionCalls = [e1] := by
      rw [vspec.2.1]
      show s1.functionCalls = [e1]
      rw [dspec.2.2.2.1, hs_calls]
      simp
    have honly2 : s2.onlySelectors = true := by
      rw [vspec.2.2.1]
      show s1.onlySelectors = true
      rw [dspec.2.2.2.2.1, hs_onlySel]
    obtain ⟨aid, haid⟩ := Option.isSome_iff_exists.mp vspec.1
    unfold D1.Compile D1.compileBody
    rw [hp]
    simp only [Res.andThen]
    rw [hfields]
    simp only [Res.andThen]
    have hval : D1.validateFields
        { s2 with outputEdges := s2.outputEdges ++ [e2] } =
        .ok () { s2 with outputEdges := s2.outputEdges ++ [e2] } := by
      simp [D1.validateFields, hcalls2]
    rw [hval]
    simp only [Res.andThen]
    unfold D1.linkAuxiliaryFields
    simp only [haid, hcalls2, honly2]
    simp [edgeInsert, addEdgeRaw, updNode, Res.isOk]

/-- C10 witness: `distinct(value)` alone preserves the flag and adds
one call; `SELECT distinct(value), other FROM cpu` compiles. -/
theorem distinct_keeps_onlySelectors_and_mixes_with_fields_witness :
    ((D1.compileDistinct [.varRef "value"]
        { sources := [.measurement "cpu"] }).okOnlySelectors = some true ∧
      (D1.compileDistinct [.varRef "value"]
        { sources := [.measurement "cpu"] }).okCalls.map List.length = some 1) ∧
    (D1.Compile ⟨[.measurement "cpu"],
        [⟨.call "distinct" [.varRef "value"]⟩, ⟨.varRef "other"⟩], []⟩ ⟨1⟩
        0).isOk = true :=
  ⟨distinct_keeps_onlySelectors_and_mixes_with_fields.1 [.varRef "value"]
      { sources := [.measurement "cpu"] } (by decide),
    distinct_keeps_onlySelectors_and_mixes_with_fields.2 "value" "other"
      [.measurement "cpu"] [] ⟨1⟩ 0 (by decide) (by decide) (by decide)⟩

end InfluxQL
